import Mathlib

/-!
Verification of the player-session state machine and concurrency harness of
the elastic-ai-jam-2025 load-testing client.

The Go source (`cmd/create-and-play/main.go`, plus the registration-only and
duration-bounded variants) is shallowly embedded below: outbound messages and
the decoded response envelope are Lean structures, the per-iteration body of
`gameLoop` is the function `gameLoopStep`, a whole `Interacting` phase is the
fold `gameLoopRun`, `register` and `managePlayerSession` mirror the Go
functions of the same names, and the duration-bounded attack worker's loop is
`attackWorkerRun`.  Network effects (connect, send, read) are modelled as
explicit success/failure inputs threaded through the functions, and the global
atomic counters as a record threaded through each session.
-/

namespace ElasticAiJam

/-- `ActionMsg` from the Go source: `Action string`, `Amount *int` with
`omitempty`, so `amount = none` means the field is omitted on the wire. -/
structure ActionMsg where
  action : String
  amount : Option Int
deriving DecidableEq

/-- `PlayerStateForBet`: the nested player snapshot of an `action_player_bet`
event. -/
structure PlayerStateForBet where
  player_id : String
  chips : Int
deriving DecidableEq

/-- `ActionPlayerBetFullState`: wrapper holding the player snapshot. -/
structure ActionPlayerBetFullState where
  player : PlayerStateForBet
deriving DecidableEq

/-- `ServerResponse`: the decoded response envelope.  Every field absent from
the wire decodes to its Go zero value (the `Event` field, used only for
logging, is not modelled). -/
structure ServerResponse where
  type : String
  code : Int
  message : String
  game_id : String
  stage : String
  state : ActionPlayerBetFullState
  minimum_bet : Int
deriving DecidableEq

/-- The Go zero value of `PlayerStateForBet`. -/
def zeroPlayerState : PlayerStateForBet := ⟨"", 0⟩

/-- The Go zero value of `ActionPlayerBetFullState`. -/
def zeroBetState : ActionPlayerBetFullState := ⟨zeroPlayerState⟩

/-- The Go zero value of `ServerResponse`: what `json.Unmarshal` yields on a
line carrying none of the optional fields. -/
def zeroResponse : ServerResponse := ⟨"", 0, "", "", "", zeroBetState, 0⟩

/-- A wire line as a record of optional JSON fields (unknown extra fields are
ignored by `json.Unmarshal`, so they need no representation). -/
structure RawLine where
  type : Option String
  code : Option Int
  message : Option String
  game_id : Option String
  stage : Option String
  state : Option ActionPlayerBetFullState
  minimum_bet : Option Int
deriving DecidableEq

/-- The wire line with every optional field absent. -/
def rawEmpty : RawLine := ⟨none, none, none, none, none, none, none⟩

/-- `json.Unmarshal` into `ServerResponse`: each absent field takes its zero
value. -/
def decodeLine (r : RawLine) : ServerResponse :=
  { type := r.type.getD ""
    code := r.code.getD 0
    message := r.message.getD ""
    game_id := r.game_id.getD ""
    stage := r.stage.getD ""
    state := r.state.getD zeroBetState
    minimum_bet := r.minimum_bet.getD 0 }

/-- One encoded JSON field value (string or integer). -/
inductive JsonField where
  | str (s : String)
  | int (n : Int)
deriving DecidableEq

/-- `json.Marshal` of an `ActionMsg` as the ordered list of emitted fields:
`Amount` is a `*int` with `omitempty`, so it is emitted exactly when the
pointer is non-nil (`amount = some n`). -/
def encodeActionMsg (m : ActionMsg) : List (String × JsonField) :=
  ("action", JsonField.str m.action) ::
    (match m.amount with
     | none => []
     | some n => [("amount", JsonField.int n)])

/-- The join action sent by `joinGame`: `ActionMsg{Action: "join"}`, amount
pointer nil. -/
def joinMsg : ActionMsg := ⟨"join", none⟩

/-- The fold action `ActionMsg{Action: "bet", Amount: pint(-1)}` used by both
fold branches of `gameLoop`. -/
def foldMsg : ActionMsg := ⟨"bet", some (-1)⟩

/-- Per-session mutable state (`PlayerSessionState` minus the transport
handles, which are modelled by the explicit success/failure inputs). -/
structure SessionState where
  username : String
  hasPerformedAllIn : Bool
deriving DecidableEq

/-- The five global atomic counters. -/
structure Counters where
  successfulRegistrations : Nat
  failedRegistrations : Nat
  gamesJoined : Nat
  allInsMade : Nat
  foldsMade : Nat
deriving DecidableEq

/-- All counters zero, the state at process start. -/
def zeroCounters : Counters := ⟨0, 0, 0, 0, 0⟩

/-- What one iteration of `gameLoop` observes: the activity deadline found
elapsed at the top of the loop, a read (or decode) error from
`readServerMessage`, or a decoded server message. -/
inductive ReadOutcome where
  | timeout
  | readError
  | msg (r : ServerResponse)
deriving DecidableEq

/-- Whether the loop continues to the next iteration or the session
terminates. -/
inductive LoopResult where
  | cont
  | term
deriving DecidableEq

/-- The effect of one `gameLoop` iteration: actions sent, updated session
state, updated counters, and whether the loop continues. -/
structure StepOut where
  sent : List ActionMsg
  state : SessionState
  counters : Counters
  result : LoopResult
deriving DecidableEq

/-- One iteration of `gameLoop`.  `sendOk` tells whether the `sendJSON` call
of this iteration (if any) succeeds; on a send failure the function returns
(terminating the session) before any counter increment or flag update, exactly
as in the source. -/
def gameLoopStep (s : SessionState) (c : Counters) (o : ReadOutcome)
    (sendOk : Bool) : StepOut :=
  match o with
  | .timeout => ⟨[], s, c, .term⟩
  | .readError => ⟨[], s, c, .term⟩
  | .msg r =>
    if r.type = "action_player_bet" then
      if r.state.player.player_id = s.username then
        if !s.hasPerformedAllIn then
          let amountToBet := r.state.player.chips
          if amountToBet ≤ 0 then
            if sendOk then
              ⟨[foldMsg], s, {c with foldsMade := c.foldsMade + 1}, .cont⟩
            else ⟨[foldMsg], s, c, .term⟩
          else
            if sendOk then
              ⟨[⟨"bet", some amountToBet⟩],
               {s with hasPerformedAllIn := true},
               {c with allInsMade := c.allInsMade + 1}, .cont⟩
            else ⟨[⟨"bet", some amountToBet⟩], s, c, .term⟩
        else
          if sendOk then
            ⟨[foldMsg], s, {c with foldsMade := c.foldsMade + 1}, .cont⟩
          else ⟨[foldMsg], s, c, .term⟩
      else ⟨[], s, c, .cont⟩
    else if r.type = "event_game_over" then ⟨[], s, c, .term⟩
    else if r.type = "event_player_leaderboard_entry_end" then ⟨[], s, c, .term⟩
    else if r.type = "event_pot_won" then ⟨[], s, c, .cont⟩
    else if r.type = "" then
      ⟨[], s, c, .cont⟩
    else ⟨[], s, c, .cont⟩

/-- A whole `Interacting` phase: fold `gameLoopStep` over a list of
(observation, send-success) pairs, stopping at the first terminating
iteration.  Returns the final session state and counters. -/
def gameLoopRun : SessionState → Counters → List (ReadOutcome × Bool) →
    SessionState × Counters
  | s, c, [] => (s, c)
  | s, c, (o, k) :: rest =>
    match gameLoopStep s c o k with
    | ⟨_, s2, c2, .term⟩ => (s2, c2)
    | ⟨_, s2, c2, .cont⟩ => gameLoopRun s2 c2 rest

/-- `register`: send the registration message (`sendOk`), read one response
(`readResult = none` models a read or decode error), and classify it.
Returns the updated counters and whether registration succeeded. -/
def register (c : Counters) (sendOk : Bool)
    (readResult : Option ServerResponse) : Counters × Bool :=
  if !sendOk then
    ({c with failedRegistrations := c.failedRegistrations + 1}, false)
  else
    match readResult with
    | none =>
      ({c with failedRegistrations := c.failedRegistrations + 1}, false)
    | some resp =>
      if resp.type = "event_player_leaderboard_entry_start" then (c, true)
      else if resp.code ≠ 0 then
        ({c with failedRegistrations := c.failedRegistrations + 1}, false)
      else
        ({c with failedRegistrations := c.failedRegistrations + 1}, false)

/-- The external events one session can experience, in order: connect
outcome, registration send outcome, registration read outcome, join send
outcome, and the `Interacting` phase observations. -/
structure SessionInput where
  connectOk : Bool
  regSendOk : Bool
  regRead : Option ServerResponse
  joinSendOk : Bool
  loopEvents : List (ReadOutcome × Bool)
deriving DecidableEq

/-- The observable outcome of one session: final counters and whether a join
action was ever sent (i.e. the session reached `Joining`). -/
structure SessionOutcome where
  counters : Counters
  joinAttempted : Bool
deriving DecidableEq

/-- `managePlayerSession`: the full lifecycle of one player session.
Connect failure increments the failed counter; a successful `register` is
followed by the success increment, the join send, the joined increment, and
the game loop, each failure exiting early exactly as in the source. -/
def managePlayerSession (username : String) (c : Counters)
    (inp : SessionInput) : SessionOutcome :=
  if !inp.connectOk then
    ⟨{c with failedRegistrations := c.failedRegistrations + 1}, false⟩
  else
    let rr := register c inp.regSendOk inp.regRead
    if !rr.2 then ⟨rr.1, false⟩
    else
      let c2 := {rr.1 with
        successfulRegistrations := rr.1.successfulRegistrations + 1}
      if !inp.joinSendOk then ⟨c2, true⟩
      else
        let c3 := {c2 with gamesJoined := c2.gamesJoined + 1}
        let fin := gameLoopRun ⟨username, false⟩ c3 inp.loopEvents
        ⟨fin.2, true⟩

/-- The harness: run every launched session in turn against the shared
counters (atomic increments make any interleaving equivalent to a sequential
one for the counter totals). -/
def runSessions (c : Counters) : List (String × SessionInput) → Counters
  | [] => c
  | (u, inp) :: rest =>
    runSessions (managePlayerSession u c inp).counters rest

/-- The duration-bounded attack worker's loop (`attackWorker`): at the top of
each iteration the worker checks the shared stop signal (`signal i` is what
the check at iteration `i` observes); if set it returns, otherwise it performs
one request and loops.  `fuel` bounds the unrolling; the result is the list of
iteration indices at which a request was made. -/
def attackWorkerRun (signal : Nat → Bool) : Nat → Nat → List Nat
  | 0, _ => []
  | fuel + 1, i =>
    if signal i then [] else i :: attackWorkerRun signal fuel (i + 1)

/-! ## Helper lemmas shared by several claims -/

/-- Every list of actions sent by one `gameLoop` iteration is empty, the
single fold, or a single bet of some strictly positive amount. -/
theorem gameLoopStep_sent_cases (s : SessionState) (c : Counters)
    (o : ReadOutcome) (k : Bool) :
    (gameLoopStep s c o k).sent = [] ∨
    (gameLoopStep s c o k).sent = [foldMsg] ∨
    ∃ n : Int, 0 < n ∧ (gameLoopStep s c o k).sent = [⟨"bet", some n⟩] := by
  cases o with
  | timeout => exact Or.inl rfl
  | readError => exact Or.inl rfl
  | msg r =>
    simp only [gameLoopStep]
    repeat' split
    all_goals
      first
        | exact Or.inl rfl
        | exact Or.inr (Or.inl rfl)
        | exact Or.inr (Or.inr ⟨r.state.player.chips, by omega, rfl⟩)

/-- One `gameLoop` iteration never clears the all-in flag. -/
theorem gameLoopStep_flag_mono (s : SessionState) (c : Counters)
    (o : ReadOutcome) (k : Bool) (h : s.hasPerformedAllIn = true) :
    (gameLoopStep s c o k).state.hasPerformedAllIn = true := by
  cases o with
  | timeout => exact h
  | readError => exact h
  | msg r =>
    simp only [gameLoopStep]
    repeat' split
    all_goals simp_all

/-- A whole `Interacting` phase never clears the all-in flag. -/
theorem gameLoopRun_flag_mono (l : List (ReadOutcome × Bool)) :
    ∀ (s : SessionState) (c : Counters), s.hasPerformedAllIn = true →
      (gameLoopRun s c l).1.hasPerformedAllIn = true := by
  induction l with
  | nil => intro s c h; exact h
  | cons p rest ih =>
    obtain ⟨o, k⟩ := p
    intro s c h
    have hstep := gameLoopStep_flag_mono s c o k h
    unfold gameLoopRun
    rcases hgs : gameLoopStep s c o k with ⟨sent, s2, c2, res⟩
    rw [hgs] at hstep
    cases res
    · exact ih s2 c2 hstep
    · exact hstep

/-- One `gameLoop` iteration leaves the registration and join counters
untouched (it only ever increments `allInsMade` or `foldsMade`). -/
theorem gameLoopStep_reg_counters (s : SessionState) (c : Counters)
    (o : ReadOutcome) (k : Bool) :
    (gameLoopStep s c o k).counters.successfulRegistrations =
        c.successfulRegistrations ∧
    (gameLoopStep s c o k).counters.failedRegistrations =
        c.failedRegistrations ∧
    (gameLoopStep s c o k).counters.gamesJoined = c.gamesJoined := by
  cases o with
  | timeout => exact ⟨rfl, rfl, rfl⟩
  | readError => exact ⟨rfl, rfl, rfl⟩
  | msg r =>
    simp only [gameLoopStep]
    repeat' split
    all_goals simp_all

/-- A whole `Interacting` phase leaves the registration and join counters
untouched. -/
theorem gameLoopRun_reg_counters (l : List (ReadOutcome × Bool)) :
    ∀ (s : SessionState) (c : Counters),
      (gameLoopRun s c l).2.successfulRegistrations =
          c.successfulRegistrations ∧
      (gameLoopRun s c l).2.failedRegistrations = c.failedRegistrations ∧
      (gameLoopRun s c l).2.gamesJoined = c.gamesJoined := by
  induction l with
  | nil => intro s c; exact ⟨rfl, rfl, rfl⟩
  | cons p rest ih =>
    obtain ⟨o, k⟩ := p
    intro s c
    have hstep := gameLoopStep_reg_counters s c o k
    unfold gameLoopRun
    rcases hgs : gameLoopStep s c o k with ⟨sent, s2, c2, res⟩
    rw [hgs] at hstep
    cases res
    · obtain ⟨h1, h2, h3⟩ := ih s2 c2
      exact ⟨h1.trans hstep.1, h2.trans hstep.2.1, h3.trans hstep.2.2⟩
    · exact hstep

/-- A session whose connect and registration send succeed and whose first
response carries the success event type reaches `Joining` (a join is
attempted), increments the success counter by 1 and leaves the failed counter
unchanged — whatever happens afterwards. -/
theorem managePlayerSession_success_aux (u : String) (c : Counters)
    (inp : SessionInput) (resp : ServerResponse)
    (hc : inp.connectOk = true) (hs : inp.regSendOk = true)
    (hr : inp.regRead = some resp)
    (hty : resp.type = "event_player_leaderboard_entry_start") :
    (managePlayerSession u c inp).joinAttempted = true ∧
    (managePlayerSession u c inp).counters.successfulRegistrations =
        c.successfulRegistrations + 1 ∧
    (managePlayerSession u c inp).counters.failedRegistrations =
        c.failedRegistrations := by
  cases hj : inp.joinSendOk with
  | false => simp [managePlayerSession, register, hc, hs, hr, hty, hj]
  | true =>
    have h := gameLoopRun_reg_counters inp.loopEvents ⟨u, false⟩
      ⟨c.successfulRegistrations + 1, c.failedRegistrations,
       c.gamesJoined + 1, c.allInsMade, c.foldsMade⟩
    simp [managePlayerSession, register, hc, hs, hr, hty, hj]
    exact ⟨by simpa using h.1, by simpa using h.2.1⟩

/-- A session whose connect and registration send succeed but whose first
response does not carry the success event type terminates right there with
the failed counter incremented and no join attempted. -/
theorem managePlayerSession_failure_aux (u : String) (c : Counters)
    (inp : SessionInput) (resp : ServerResponse)
    (hc : inp.connectOk = true) (hs : inp.regSendOk = true)
    (hr : inp.regRead = some resp)
    (hty : resp.type ≠ "event_player_leaderboard_entry_start") :
    managePlayerSession u c inp =
      ⟨{c with failedRegistrations := c.failedRegistrations + 1}, false⟩ := by
  simp [managePlayerSession, register, hc, hs, hr, hty]

/-- Every session increments exactly one of the two registration counters,
exactly once. -/
theorem managePlayerSession_reg_partition (u : String) (c : Counters)
    (inp : SessionInput) :
    ((managePlayerSession u c inp).counters.successfulRegistrations =
         c.successfulRegistrations + 1 ∧
     (managePlayerSession u c inp).counters.failedRegistrations =
         c.failedRegistrations)
    ∨ ((managePlayerSession u c inp).counters.successfulRegistrations =
         c.successfulRegistrations ∧
       (managePlayerSession u c inp).counters.failedRegistrations =
         c.failedRegistrations + 1) := by
  by_cases hc : inp.connectOk = true
  case neg =>
    right
    have hc2 : inp.connectOk = false := by simpa using hc
    simp [managePlayerSession, hc2]
  case pos =>
  by_cases hs : inp.regSendOk = true
  case neg =>
    right
    have hs2 : inp.regSendOk = false := by simpa using hs
    simp [managePlayerSession, register, hc, hs2]
  case pos =>
  cases hr : inp.regRead with
  | none =>
    right
    simp [managePlayerSession, register, hc, hs, hr]
  | some resp =>
    by_cases hty : resp.type = "event_player_leaderboard_entry_start"
    · left
      have h := managePlayerSession_success_aux u c inp resp hc hs hr hty
      exact ⟨h.2.1, h.2.2⟩
    · right
      rw [managePlayerSession_failure_aux u c inp resp hc hs hr hty]
      exact ⟨rfl, rfl⟩

/-- Running a list of sessions adds exactly one registration outcome per
session to the success + failed total. -/
theorem runSessions_sum (l : List (String × SessionInput)) :
    ∀ c : Counters,
      (runSessions c l).successfulRegistrations +
          (runSessions c l).failedRegistrations =
        c.successfulRegistrations + c.failedRegistrations + l.length := by
  induction l with
  | nil => intro c; simp [runSessions]
  | cons p rest ih =>
    obtain ⟨u, inp⟩ := p
    intro c
    have hstep := managePlayerSession_reg_partition u c inp
    have hrec := ih (managePlayerSession u c inp).counters
    simp only [runSessions, List.length_cons]
    rcases hstep with ⟨h1, h2⟩ | ⟨h1, h2⟩ <;> omega

/-! ## The claims -/

/-- C1: a session in `Interacting` with the all-in flag unset that receives an
`action_player_bet` event whose embedded `player_id` equals its username and
whose `chips` is strictly positive sends exactly one bet equal to the full
chip count, increments `allInsMade` by 1, sets the all-in flag, and continues
the loop (the send here succeeds; a failed send exits before any update). -/
theorem C1_allin_bet (u : String) (c : Counters) (r : ServerResponse)
    (hty : r.type = "action_player_bet")
    (hid : r.state.player.player_id = u)
    (hchips : 0 < r.state.player.chips) :
    gameLoopStep ⟨u, false⟩ c (.msg r) true =
      ⟨[⟨"bet", some r.state.player.chips⟩], ⟨u, true⟩,
       {c with allInsMade := c.allInsMade + 1}, .cont⟩ := by
  unfold gameLoopStep
  simp [hty, hid, show ¬ r.state.player.chips ≤ 0 by omega]

/-- Witness for C1 at the spec scenario: session "p7", betting turn with
chips 500, starting from zero counters. -/
theorem C1_allin_bet_witness :
    gameLoopStep ⟨"p7", false⟩ zeroCounters
      (.msg ⟨"action_player_bet", 0, "", "", "", ⟨⟨"p7", 500⟩⟩, 0⟩) true =
      ⟨[⟨"bet", some 500⟩], ⟨"p7", true⟩,
       {zeroCounters with allInsMade := 1}, .cont⟩ :=
  C1_allin_bet "p7" zeroCounters _ rfl rfl (by decide)

/-- C3: a session with the all-in flag unset that receives a betting turn for
itself with `chips ≤ 0` sends exactly one fold (`amount = -1`, not a bet),
increments `foldsMade` by 1, and leaves the all-in flag unset. -/
theorem C3_forced_fold (u : String) (c : Counters) (r : ServerResponse)
    (hty : r.type = "action_player_bet")
    (hid : r.state.player.player_id = u)
    (hchips : r.state.player.chips ≤ 0) :
    gameLoopStep ⟨u, false⟩ c (.msg r) true =
      ⟨[foldMsg], ⟨u, false⟩,
       {c with foldsMade := c.foldsMade + 1}, .cont⟩ := by
  unfold gameLoopStep
  simp [hty, hid, hchips]

/-- Witness for C3: session "p7", betting turn for itself with chips 0. -/
theorem C3_forced_fold_witness :
    gameLoopStep ⟨"p7", false⟩ zeroCounters
      (.msg ⟨"action_player_bet", 0, "", "", "", ⟨⟨"p7", 0⟩⟩, 0⟩) true =
      ⟨[foldMsg], ⟨"p7", false⟩,
       {zeroCounters with foldsMade := 1}, .cont⟩ :=
  C3_forced_fold "p7" zeroCounters _ rfl rfl (by decide)

/-- C8: the activity-timeout exit and the read-error exit of the `Interacting`
loop terminate the session with no action sent, no state change, and no
counter change at all. -/
theorem C8_timeout_read_error_uncounted (s : SessionState) (c : Counters)
    (k : Bool) :
    gameLoopStep s c .timeout k = ⟨[], s, c, .term⟩ ∧
    gameLoopStep s c .readError k = ⟨[], s, c, .term⟩ :=
  ⟨rfl, rfl⟩

/-- C2: the all-in flag is never cleared, by one iteration or by any remainder
of the `Interacting` phase; and a session whose flag is set, on any betting
turn addressed to it, sends exactly the fold (`amount = -1`, so never another
bet) and, when the send succeeds, increments `foldsMade` by 1. -/
theorem C2_allin_flag_permanent :
    (∀ (s : SessionState) (c : Counters) (o : ReadOutcome) (k : Bool),
       s.hasPerformedAllIn = true →
       (gameLoopStep s c o k).state.hasPerformedAllIn = true)
  ∧ (∀ (s : SessionState) (c : Counters) (l : List (ReadOutcome × Bool)),
       s.hasPerformedAllIn = true →
       (gameLoopRun s c l).1.hasPerformedAllIn = true)
  ∧ (∀ (u : String) (c : Counters) (r : ServerResponse) (k : Bool),
       r.type = "action_player_bet" → r.state.player.player_id = u →
       (gameLoopStep ⟨u, true⟩ c (.msg r) k).sent = [foldMsg]
       ∧ (gameLoopStep ⟨u, true⟩ c (.msg r) true).counters.foldsMade =
           c.foldsMade + 1) := by
  refine ⟨gameLoopStep_flag_mono, ?_, ?_⟩
  · intro s c l h
    exact gameLoopRun_flag_mono l s c h
  · intro u c r k hty hid
    constructor
    · cases k <;> simp [gameLoopStep, hty, hid]
    · simp [gameLoopStep, hty, hid]

/-- Witness for C2: session "p7" with the flag set, betting turn for itself,
sends exactly the fold. -/
theorem C2_allin_flag_permanent_witness :
    (gameLoopStep ⟨"p7", true⟩ zeroCounters
      (.msg ⟨"action_player_bet", 0, "", "", "", ⟨⟨"p7", 7⟩⟩, 0⟩)
      true).sent = [foldMsg] :=
  (C2_allin_flag_permanent.2.2 "p7" zeroCounters _ true rfl rfl).1

/-- C10: any negative amount the game loop ever sends is exactly -1, and both
fold branches (forced fold on non-positive chips with the flag unset, and the
post-all-in fold) send exactly `foldMsg`, whose amount is -1. -/
theorem C10_fold_amount_minus_one :
    (∀ (s : SessionState) (c : Counters) (o : ReadOutcome) (k : Bool),
       ∀ a ∈ (gameLoopStep s c o k).sent, ∀ n : Int,
         a.amount = some n → n < 0 → n = -1)
  ∧ (∀ (u : String) (c : Counters) (r : ServerResponse) (k : Bool),
       r.type = "action_player_bet" → r.state.player.player_id = u →
       r.state.player.chips ≤ 0 →
       (gameLoopStep ⟨u, false⟩ c (.msg r) k).sent = [foldMsg])
  ∧ (∀ (u : String) (c : Counters) (r : ServerResponse) (k : Bool),
       r.type = "action_player_bet" → r.state.player.player_id = u →
       (gameLoopStep ⟨u, true⟩ c (.msg r) k).sent = [foldMsg]) := by
  refine ⟨?_, ?_, ?_⟩
  · intro s c o k a ha n han hneg
    rcases gameLoopStep_sent_cases s c o k with h | h | ⟨m, hm, h⟩
    · rw [h] at ha; simp at ha
    · rw [h] at ha; simp at ha; subst ha
      simp [foldMsg] at han
      omega
    · rw [h] at ha; simp at ha; subst ha
      simp at han
      omega
  · intro u c r k hty hid hch
    cases k <;> simp [gameLoopStep, hty, hid, hch]
  · intro u c r k hty hid
    cases k <;> simp [gameLoopStep, hty, hid]

/-- Witness for C10: the forced-fold branch at chips 0 sends exactly the fold
with amount -1. -/
theorem C10_fold_amount_minus_one_witness :
    (gameLoopStep ⟨"p9", false⟩ zeroCounters
      (.msg ⟨"action_player_bet", 0, "", "", "", ⟨⟨"p9", 0⟩⟩, 0⟩)
      true).sent = [foldMsg] :=
  C10_fold_amount_minus_one.2.1 "p9" zeroCounters _ true rfl rfl (by decide)

/-- C7: the join action is encoded with no amount field; an `ActionMsg` is
encoded with an amount field exactly when its amount pointer is non-nil
(Go `omitempty` on `*int`); and every action the game loop sends is a bet with
an explicit amount — so among the program's outbound actions the amount field
is omitted exactly for `"join"`. -/
theorem C7_amount_omitted_iff_join :
    encodeActionMsg joinMsg = [("action", JsonField.str "join")]
  ∧ (∀ m : ActionMsg, m.amount = none →
       encodeActionMsg m = [("action", JsonField.str m.action)])
  ∧ (∀ (m : ActionMsg) (n : Int), m.amount = some n →
       encodeActionMsg m =
         [("action", JsonField.str m.action), ("amount", JsonField.int n)])
  ∧ (∀ (s : SessionState) (c : Counters) (o : ReadOutcome) (k : Bool),
       ∀ a ∈ (gameLoopStep s c o k).sent,
         a.action = "bet" ∧ ∃ n : Int, a.amount = some n) := by
  refine ⟨rfl, ?_, ?_, ?_⟩
  · intro m h
    simp [encodeActionMsg, h]
  · intro m n h
    simp [encodeActionMsg, h]
  · intro s c o k a ha
    rcases gameLoopStep_sent_cases s c o k with h | h | ⟨m, hm, h⟩
    · rw [h] at ha; simp at ha
    · rw [h] at ha; simp at ha; subst ha
      exact ⟨rfl, ⟨-1, rfl⟩⟩
    · rw [h] at ha; simp at ha; subst ha
      exact ⟨rfl, ⟨m, rfl⟩⟩

/-- Witness for C7: the fold action is encoded with an explicit amount field
holding -1. -/
theorem C7_amount_omitted_iff_join_witness :
    encodeActionMsg foldMsg =
      [("action", JsonField.str "bet"), ("amount", JsonField.int (-1))] :=
  C7_amount_omitted_iff_join.2.2.1 foldMsg (-1) rfl

/-- C4: with connect and registration send succeeding and a response decoded,
the session advances past `Registering` (a join is attempted) with the
success counter incremented by exactly 1 if and only if the response type is
"event_player_leaderboard_entry_start"; any other decoded response — non-zero
code or unexpected shape alike — increments the failed counter by 1, leaves
the success counter unchanged, and terminates the session with no join ever
sent. -/
theorem C4_registration_classification (u : String) (c : Counters)
    (inp : SessionInput) (resp : ServerResponse)
    (hc : inp.connectOk = true) (hs : inp.regSendOk = true)
    (hr : inp.regRead = some resp) :
    ((resp.type = "event_player_leaderboard_entry_start") ↔
       ((managePlayerSession u c inp).joinAttempted = true ∧
        (managePlayerSession u c inp).counters.successfulRegistrations =
          c.successfulRegistrations + 1))
  ∧ (resp.type ≠ "event_player_leaderboard_entry_start" →
       (managePlayerSession u c inp).counters.failedRegistrations =
           c.failedRegistrations + 1
       ∧ (managePlayerSession u c inp).joinAttempted = false
       ∧ (managePlayerSession u c inp).counters.successfulRegistrations =
           c.successfulRegistrations) := by
  by_cases hty : resp.type = "event_player_leaderboard_entry_start"
  · obtain ⟨h1, h2, h3⟩ :=
      managePlayerSession_success_aux u c inp resp hc hs hr hty
    exact ⟨⟨fun _ => ⟨h1, h2⟩, fun _ => hty⟩, fun h => absurd hty h⟩
  · have h := managePlayerSession_failure_aux u c inp resp hc hs hr hty
    constructor
    · constructor
      · intro h2
        exact absurd h2 hty
      · rintro ⟨hj, _⟩
        rw [h] at hj
        simp at hj
    · intro _
      rw [h]
      exact ⟨rfl, rfl, rfl⟩

/-- Witness for C4: a registration response of the success event type makes
the session attempt the join and raises the success counter to 1. -/
theorem C4_registration_classification_witness :
    (managePlayerSession "w4" zeroCounters
      ⟨true, true,
       some ⟨"event_player_leaderboard_entry_start", 0, "", "", "",
             ⟨⟨"", 0⟩⟩, 0⟩,
       true, []⟩).joinAttempted = true ∧
    (managePlayerSession "w4" zeroCounters
      ⟨true, true,
       some ⟨"event_player_leaderboard_entry_start", 0, "", "", "",
             ⟨⟨"", 0⟩⟩, 0⟩,
       true, []⟩).counters.successfulRegistrations = 1 :=
  (C4_registration_classification "w4" zeroCounters
    ⟨true, true,
     some ⟨"event_player_leaderboard_entry_start", 0, "", "", "",
           ⟨⟨"", 0⟩⟩, 0⟩,
     true, []⟩
    ⟨"event_player_leaderboard_entry_start", 0, "", "", "", ⟨⟨"", 0⟩⟩, 0⟩
    rfl rfl rfl).1.mp rfl

/-- C5: every session increments exactly one of the two registration counters
exactly once (every failure path — connect, send, read/decode, non-zero code,
unexpected shape — the failed one; the success path the success one), so a
run of N sessions from zero counters ends with success + failed = N. -/
theorem C5_registration_counters_partition :
    (∀ (u : String) (c : Counters) (inp : SessionInput),
       ((managePlayerSession u c inp).counters.successfulRegistrations =
            c.successfulRegistrations + 1 ∧
        (managePlayerSession u c inp).counters.failedRegistrations =
            c.failedRegistrations)
       ∨ ((managePlayerSession u c inp).counters.successfulRegistrations =
            c.successfulRegistrations ∧
          (managePlayerSession u c inp).counters.failedRegistrations =
            c.failedRegistrations + 1))
  ∧ (∀ l : List (String × SessionInput),
       (runSessions zeroCounters l).successfulRegistrations +
           (runSessions zeroCounters l).failedRegistrations = l.length) := by
  refine ⟨managePlayerSession_reg_partition, ?_⟩
  intro l
  have h := runSessions_sum l zeroCounters
  simpa [zeroCounters] using h

/-- C6: a line with every optional field absent decodes to the zero envelope
(`type = ""`, `code = 0`), on which the `Interacting` loop continues with
nothing sent and no counter change; the line carrying only `code 400` and
`message "bad"` decodes to the bare-error variant (`type = ""`, non-zero
code); and a bare-error message never terminates the loop, for every non-zero
code and any message. -/
theorem C6_bare_error_nonfatal :
    (decodeLine rawEmpty = zeroResponse)
  ∧ (∀ (s : SessionState) (c : Counters) (k : Bool),
       gameLoopStep s c (.msg (decodeLine rawEmpty)) k = ⟨[], s, c, .cont⟩)
  ∧ (decodeLine ⟨none, some 400, some "bad", none, none, none, none⟩ =
       {zeroResponse with code := 400, message := "bad"})
  ∧ (∀ (code : Int) (msg : String), code ≠ 0 →
       ∀ (s : SessionState) (c : Counters) (k : Bool),
         gameLoopStep s c
           (.msg {zeroResponse with code := code, message := msg}) k =
           ⟨[], s, c, .cont⟩) := by
  refine ⟨rfl, fun s c k => rfl, rfl, fun code msg h s c k => rfl⟩

/-- Witness for C6 at the spec example: the bare error with code 400 and
message "bad" leaves the loop running and the state and counters untouched. -/
theorem C6_bare_error_nonfatal_witness :
    gameLoopStep ⟨"w6", false⟩ zeroCounters
      (.msg {zeroResponse with code := 400, message := "bad"}) true =
      ⟨[], ⟨"w6", false⟩, zeroCounters, .cont⟩ :=
  C6_bare_error_nonfatal.2.2.2 400 "bad" (by decide) ⟨"w6", false⟩
    zeroCounters true

/-- The attack worker's request trace when the stop signal is observed false
up to index `d` and true from index `d + 1` on: it performs exactly the
requests `0, …, d` and then returns. -/
theorem attackWorkerRun_range (signal : Nat → Bool) (d : Nat)
    (hfalse : ∀ j, j ≤ d → signal j = false)
    (htrue : signal (d + 1) = true) :
    ∀ fuel i, i ≤ d + 1 → d + 2 - i ≤ fuel →
      attackWorkerRun signal fuel i = List.range' i (d + 1 - i) := by
  intro fuel
  induction fuel with
  | zero =>
    intro i h1 h2
    omega
  | succ n ih =>
    intro i h1 h2
    by_cases hi : i = d + 1
    · subst hi
      simp [attackWorkerRun, htrue]
    · have hle : i ≤ d := by omega
      have hsig := hfalse i hle
      rw [attackWorkerRun, hsig]
      simp only [Bool.false_eq_true, if_false]
      rw [ih (i + 1) (by omega) (by omega)]
      have hd : d + 1 - i = (d - i) + 1 := by omega
      rw [hd, List.range'_succ]
      have hd2 : d + 1 - (i + 1) = d - i := by omega
      rw [hd2]

/-- C9: with a monotone stop signal that worker checks first observe at
iteration `d + 1` (false at `d`, true from `d + 1`), the worker makes exactly
the requests `0, …, d`: every request is started only at an iteration where
the signal was observed unset, and at most one request (the one at index `d`,
in flight while the signal was being raised) happens at or after index `d`. -/
theorem C9_stop_signal_cooperative (signal : Nat → Bool) (d fuel : Nat)
    (hmono : ∀ a b, a ≤ b → signal a = true → signal b = true)
    (hd : signal d = false) (hd1 : signal (d + 1) = true)
    (hfuel : d + 2 ≤ fuel) :
    attackWorkerRun signal fuel 0 = List.range (d + 1)
  ∧ (∀ j ∈ attackWorkerRun signal fuel 0, signal j = false)
  ∧ ((attackWorkerRun signal fuel 0).filter
       (fun j => decide (d ≤ j))).length = 1 := by
  have hfalse : ∀ j, j ≤ d → signal j = false := by
    intro j hj
    by_contra h
    have ht : signal j = true := by simpa using h
    have := hmono j d hj ht
    rw [hd] at this
    exact absurd this (by simp)
  have hrange := attackWorkerRun_range signal d hfalse hd1 fuel 0
    (by omega) (by omega)
  have hr0 : List.range' 0 (d + 1) = List.range (d + 1) := by
    rw [List.range_eq_range']
  have hrun : attackWorkerRun signal fuel 0 = List.range (d + 1) := by
    rw [hrange]
    exact hr0
  refine ⟨hrun, ?_, ?_⟩
  · intro j hj
    rw [hrun, List.mem_range] at hj
    exact hfalse j (by omega)
  · rw [hrun]
    have hsplit : List.range (d + 1) = List.range d ++ [d] :=
      List.range_succ d
    rw [hsplit, List.filter_append]
    have h1 : (List.range d).filter (fun j => decide (d ≤ j)) = [] := by
      apply List.filter_eq_nil_iff.mpr
      intro a ha
      rw [List.mem_range] at ha
      simp
      omega
    rw [h1]
    simp

/-- Witness for C9: the signal first observed true at iteration 3 lets the
worker make exactly the requests 0, 1, 2. -/
theorem C9_stop_signal_cooperative_witness :
    attackWorkerRun (fun j => decide (3 ≤ j)) 10 0 = List.range 3 :=
  (C9_stop_signal_cooperative (fun j => decide (3 ≤ j)) 2 10
    (by intro a b hab h; simp at h ⊢; omega)
    (by decide) (by decide) (by decide)).1

end ElasticAiJam
